import Mathlib

set_option maxHeartbeats 1000000
set_option maxRecDepth 10000

/-
Verification of the raw-socket disco capture path of
wgengine/magicsock/magicsock_linux.go: the classic-BPF filter programs
for IPv4 and IPv6, the filter installer setBPF, the self-test phase of
listenRawDisco, and the receiveDisco loop.  Each Go construct is
shallowly embedded as an executable Lean definition; packets are lists
of byte values.
-/
/-- Big-endian load of `size` bytes of `pkt` starting at byte offset
`off`, as classic BPF does for LoadAbsolute / LoadIndirect; `none` when
the access runs past the end of the packet (the kernel then terminates
the filter and drops the packet). -/
def loadBE (pkt : List Nat) (off size : Nat) : Option Nat :=
  if off + size ≤ pkt.length then
    some (((pkt.drop off).take size).foldl (fun a b => 256 * a + b) 0)
  else none

/-- The conditional-jump conditions used by the two disco filters. -/
inductive JumpCond where
  | jumpEqual
  | jumpBitsSet
deriving DecidableEq

/-- The subset of classic-BPF instructions the two disco filters use,
with the fields of the corresponding golang.org/x/net/bpf values. -/
inductive Instr where
  | loadAbsolute (off size : Nat)
  | loadMemShift (off : Nat)
  | loadIndirect (off size : Nat)
  | jumpIf (cond : JumpCond) (val : Nat) (skipTrue skipFalse : Nat)
  | retConstant (val : Nat)
deriving DecidableEq

/-- How a filter evaluation ends: at a RetConstant with value `v`, with
the kernel's implicit drop after an out-of-bounds load (`abort`), or by
running past the end of the program (`felloff`, never reached by a
well-formed program). -/
inductive Outcome where
  | ret (v : Nat)
  | abort
  | felloff
deriving DecidableEq

def jumpTest (c : JumpCond) (a val : Nat) : Bool :=
  match c with
  | .jumpEqual => a == val
  | .jumpBitsSet => (a &&& val) != 0

/-- Fuel-indexed evaluator for a classic-BPF program: `a` is the
accumulator, `x` the index register, `pkt` the bytes the filter sees.
Conditional jumps skip `skipTrue`/`skipFalse` following instructions;
there are no backward jumps, so the remaining program only shrinks.
The fuel only bounds the number of steps; `execProg` supplies enough
fuel that it never runs out before the program does. -/
def execF : Nat → List Instr → Nat → Nat → List Nat → Outcome
  | _, [], _, _, _ => .felloff
  | 0, _ :: _, _, _, _ => .felloff
  | _ + 1, .retConstant v :: _, _, _, _ => .ret v
  | f + 1, .loadAbsolute off sz :: rest, _, x, pkt =>
    match loadBE pkt off sz with
    | some v => execF f rest v x pkt
    | none => .abort
  | f + 1, .loadIndirect off sz :: rest, _, x, pkt =>
    match loadBE pkt (x + off) sz with
    | some v => execF f rest v x pkt
    | none => .abort
  | f + 1, .loadMemShift off :: rest, a, _, pkt =>
    match loadBE pkt off 1 with
    | some b => execF f rest a (4 * (b % 16)) pkt
    | none => .abort
  | f + 1, .jumpIf c val st sf :: rest, a, x, pkt =>
    execF f (rest.drop (if jumpTest c a val then st else sf)) a x pkt

/-- Run a filter program from the initial state on a packet. -/
def execProg (prog : List Instr) (a x : Nat) (pkt : List Nat) : Outcome :=
  execF prog.length prog a x pkt

/-- The accept/drop value the kernel extracts from a filter run: the
returned constant, or 0 (drop) when a load ran out of bounds. -/
def runFilter (prog : List Instr) (pkt : List Nat) : Nat :=
  match execProg prog 0 0 pkt with
  | .ret v => v
  | _ => 0

def udpHeaderSize : Nat := 8

/-- Modelled from the spec: the two-part disco marker constants
(`discoMagic1`, `discoMagic2`) are declared elsewhere in the magicsock
package, outside this file; per the spec the 6-byte marker is a 4-byte
magic value followed by 2 more bytes and is also the prefix of
`testDiscoPacket`, so the first constant is the big-endian value of
bytes 0x54 0x53 0xf0 0x9f and the second of bytes 0x92 0xac. -/
def discoMagic1 : Nat := 0x5453f09f

/-- Modelled from the spec: second marker segment, see `discoMagic1`. -/
def discoMagic2 : Nat := 0x92ac

/-- The IPv4 disco filter from magicsock_linux.go.  The filter sees the
whole IP packet: it drops fragments (more-fragments bit 0x2000 or a
non-zero fragment offset 0x1fff in bytes 6-7), loads the IP header
length into X, and compares 4 bytes at X+8 and 2 bytes at X+12 against
the marker. -/
def magicsockFilterV4 : List Instr := [
  .loadAbsolute 6 2,
  .jumpIf .jumpBitsSet 0x2000 7 0,
  .jumpIf .jumpBitsSet 0x1fff 6 0,
  .loadMemShift 0,
  .loadIndirect udpHeaderSize 4,
  .jumpIf .jumpEqual discoMagic1 0 3,
  .loadIndirect (udpHeaderSize + 4) 2,
  .jumpIf .jumpEqual discoMagic2 0 1,
  .retConstant 0xFFFFFFFF,
  .retConstant 0x0]

/-- The IPv6 disco filter from magicsock_linux.go.  The filter sees the
UDP header onward only, so it compares 4 bytes at offset 8 and 2 bytes
at offset 12 against the marker. -/
def magicsockFilterV6 : List Instr := [
  .loadAbsolute udpHeaderSize 4,
  .jumpIf .jumpEqual discoMagic1 0 3,
  .loadAbsolute (udpHeaderSize + 4) 2,
  .jumpIf .jumpEqual discoMagic2 0 1,
  .retConstant 0xFFFFFFFF,
  .retConstant 0x0]

/-- The synthetic self-test packet from magicsock_linux.go: 6 marker
bytes, a 32-byte zero sender key, a 24-byte zero nonce. -/
def testDiscoPacket : List Nat := [
  0x54, 0x53, 0xf0, 0x9f, 0x92, 0xac,
  0x0, 0x0, 0x0, 0x0, 0x0, 0x0, 0x0, 0x0,
  0x0, 0x0, 0x0, 0x0, 0x0, 0x0, 0x0, 0x0,
  0x0, 0x0, 0x0, 0x0, 0x0, 0x0, 0x0, 0x0,
  0x0, 0x0, 0x0, 0x0, 0x0, 0x0, 0x0, 0x0,
  0x0, 0x0, 0x0, 0x0, 0x0, 0x0, 0x0, 0x0,
  0x0, 0x0, 0x0, 0x0, 0x0, 0x0, 0x0, 0x0,
  0x0, 0x0, 0x0, 0x0, 0x0, 0x0, 0x0, 0x0]

/-- The IP header length the V4 filter computes with LoadMemShift:
4 times the low nibble of byte 0; `none` when the packet is empty. -/
def ipv4HeaderLen (pkt : List Nat) : Option Nat :=
  (loadBE pkt 0 1).map fun b => 4 * (b % 16)

/-- Characterization of the V4 marker test, written from the claim: the
4 bytes at headerLength+8 equal the first magic value and the 2 bytes
at headerLength+12 equal the second. -/
def v4MarkerMatch (pkt : List Nat) : Bool :=
  match ipv4HeaderLen pkt with
  | none => false
  | some hl =>
    (loadBE pkt (hl + 8) 4 == some discoMagic1) &&
      (loadBE pkt (hl + 12) 2 == some discoMagic2)

/-- Characterization of the V6 marker test, written from the claim: the
4 bytes at offset 8 equal the first magic value and the 2 bytes at
offset 12 equal the second. -/
def v6MarkerMatch (pkt : List Nat) : Bool :=
  (loadBE pkt 8 4 == some discoMagic1) &&
    (loadBE pkt 12 2 == some discoMagic2)

/-- Error-flow model of setBPF from magicsock_linux.go.  Errors are
`Option Nat` (`none` = Go nil).  `scErr` is what `SyscallConn()`
returns, `ctlErr` what `Control(...)` returns, and `sockoptErr` what
`SetsockoptSockFprog` stores into the callback-captured `setErr`.  The
body mirrors the Go statement sequence exactly, including the final
`return err` (not `return setErr`) on the `setErr != nil` branch. -/
def setBPF (scErr ctlErr sockoptErr : Option Nat) : Option Nat :=
  match scErr with
  | some e => some e
  | none =>
    let err := ctlErr
    match err with
    | some e => some e
    | none =>
      match sockoptErr with
      | some _ => err
      | none => none

/-- Observable actions of the setup phase of listenRawDisco after the
self-test deadline has been set on the raw socket. -/
inductive Event where
  | closeSocket
  | clearDeadline
  | startLoop
  | returnErr
  | returnOk
  | dispatchEvt
deriving DecidableEq

/-- One result of `pc.ReadFrom` during the self-test: `ok data src` is
a successful read of the bytes `data` from source `src` (so `n` is
`data.length`), `err` is any read error, deadline expiry included. -/
inductive STRead where
  | ok (data : List Nat) (src : List Nat)
  | err
deriving DecidableEq

/-- The self-test read loop of listenRawDisco, as the trace of events
it performs given the successive raw-socket read results: on a read
error it closes the socket and returns the error; reads shorter than
the UDP header, or whose bytes after the 8-byte header differ from
`testDiscoPacket`, are skipped; on the first match it clears the read
deadline, starts the receive loop and returns the handle. -/
def selfTestPhase : List STRead → List Event
  | [] => []
  | .err :: _ => [.closeSocket, .returnErr]
  | .ok data _ :: rest =>
    if data.length < udpHeaderSize then selfTestPhase rest
    else if data.drop udpHeaderSize == testDiscoPacket then
      [.clearDeadline, .startLoop, .returnOk]
    else selfTestPhase rest

/-- Arguments of the one `handleDiscoMessage` call of the receive
loop: the payload bytes after the UDP header, the parsed source IP
bytes, the parsed source port, and the sender identity (the zero
`key.NodePublic{}`, 32 zero bytes). -/
structure DiscoDispatch where
  payload : List Nat
  srcIP : List Nat
  srcPort : Nat
  senderKey : List Nat
deriving DecidableEq

/-- What one receive-loop iteration did before continuing: the
dispatch performed (if any), how much each per-family counter was
incremented, whether the bound port was looked up, and whether the
port-0 anomaly was logged. -/
structure IterEffects where
  dispatched : Option DiscoDispatch
  v4Count : Nat
  v6Count : Nat
  portLookup : Bool
  loggedPortZero : Bool
deriving DecidableEq

/-- Outcome of one receive-loop iteration: clean exit on a closed
socket, exit after logging on any other read error, or continue with
the recorded effects. -/
inductive IterOut where
  | exitClean
  | exitError
  | cont (e : IterEffects)
deriving DecidableEq

/-- One result of `pc.ReadFrom` in the receive loop: `ok n src` is a
read of `n` bytes into the 1500-byte buffer from the IP address whose
bytes are `src`; `closed` is net.ErrClosed; `failed` any other
error. -/
inductive RawRead where
  | ok (n : Nat) (src : List Nat)
  | closed
  | failed
deriving DecidableEq

/-- Go slicing `buf[i:j]`; `none` models the out-of-range panic. -/
def goSlice (buf : List Nat) (i j : Nat) : Option (List Nat) :=
  if i ≤ j ∧ j ≤ buf.length then some ((buf.take j).drop i) else none

/-- The receive-loop steps of receiveDisco after the destination port
has been parsed and its port-0 anomaly logged (`logged`): look up the
bound port (`acceptPort`), drop when it is 0 or differs from
`dstPort`, parse the source address (`netip.AddrFromSlice` succeeds on
4- or 16-byte slices), parse the source port from bytes 0-1, bump the
counter of the source family (`Is4` means a 4-byte source), and
dispatch the payload `buf[8:n]` with a zero sender key.  `none` models
a panicking buffer access. -/
def discoPortProcess (acceptPort : Nat) (buf : List Nat) (n : Nat)
    (src : List Nat) (dstPort : Nat) (logged : Bool) : Option IterOut :=
  if acceptPort == 0 then some (.cont ⟨none, 0, 0, true, logged⟩)
  else if dstPort != acceptPort then some (.cont ⟨none, 0, 0, true, logged⟩)
  else if src.length == 4 || src.length == 16 then
    match loadBE buf 0 2, goSlice buf udpHeaderSize n with
    | some srcPort, some payload =>
      if src.length == 4 then
        some (.cont ⟨some ⟨payload, src, srcPort, List.replicate 32 0⟩, 1, 0, true, logged⟩)
      else
        some (.cont ⟨some ⟨payload, src, srcPort, List.replicate 32 0⟩, 0, 1, true, logged⟩)
    | _, _ => none
  else some (.cont ⟨none, 0, 0, true, logged⟩)

/-- One iteration of the receiveDisco loop, given the per-family bound
ports `port4`/`port6` (what `c.pconn4.Port()`/`c.pconn6.Port()` return
at this iteration), the buffer contents and the read result: exit on
read errors, drop reads shorter than the UDP header, parse the
destination port from big-endian bytes 2-3, log when it is 0, then
hand off to `discoPortProcess`. -/
def receiveDiscoIter (isIPV6 : Bool) (port4 port6 : Nat) (buf : List Nat)
    (r : RawRead) : Option IterOut :=
  match r with
  | .closed => some .exitClean
  | .failed => some .exitError
  | .ok n src =>
    if n < udpHeaderSize then some (.cont ⟨none, 0, 0, false, false⟩)
    else
      match loadBE buf 2 2 with
      | none => none
      | some dstPort =>
        let logged := dstPort == 0
        let acceptPort := if isIPV6 then port6 else port4
        discoPortProcess acceptPort buf n src dstPort logged

/-- Whether an instruction is one of the two RetConstant terminators. -/
def isRet : Instr → Bool
  | .retConstant _ => true
  | _ => false

/-- Every conditional jump's skip counts land on an instruction index
strictly within the program: a jump at index i with rest of length r
may skip at most r-1 instructions. -/
def jumpsOK : List Instr → Bool
  | [] => true
  | .jumpIf _ _ st sf :: rest =>
    decide (st < rest.length) && decide (sf < rest.length) && jumpsOK rest
  | _ :: rest => jumpsOK rest

/-- The straight-line end of the program is a RetConstant. -/
def endsInRet : List Instr → Bool
  | [] => false
  | [i] => isRet i
  | _ :: i :: rest => endsInRet (i :: rest)

/-- Evaluation ended at a RetConstant or in the kernel's implicit drop
of a load past the packet's end, rather than running off the end of
the program. -/
def terminated : Outcome → Bool
  | .felloff => false
  | _ => true

/-- A well-formed unfragmented IPv4 packet carrying the marker:
0x45 header byte (header length 20), zero fragment field, marker bytes
at offsets 28-33. -/
def demoPkt4 : List Nat := [
  0x45, 0, 0, 0, 0, 0, 0, 0, 0, 0, 0, 0, 0, 0, 0, 0, 0, 0, 0, 0,
  0, 0, 0, 0, 0, 0, 0, 0,
  0x54, 0x53, 0xf0, 0x9f, 0x92, 0xac]

/-- The same packet with the more-fragments bit set in byte 6. -/
def demoFragPkt4 : List Nat := [
  0x45, 0, 0, 0, 0, 0, 0x20, 0, 0, 0, 0, 0, 0, 0, 0, 0, 0, 0, 0, 0,
  0, 0, 0, 0, 0, 0, 0, 0,
  0x54, 0x53, 0xf0, 0x9f, 0x92, 0xac]

/-- A buffer as the V6 filter sees it: 8-byte UDP header then the
marker. -/
def demoPkt6 : List Nat := [
  0, 0, 0, 0, 0, 0, 0, 0,
  0x54, 0x53, 0xf0, 0x9f, 0x92, 0xac]

/-- A 1500-byte receive buffer whose first bytes encode source port 5
(bytes 0-1) and destination port 5 (bytes 2-3), with payload byte 0xAA
at offset 8. -/
def demoBuf : List Nat :=
  [0, 5, 0, 5, 0, 0, 0, 0, 0xAA] ++ List.replicate 1491 0

/-- A 1500-byte receive buffer whose destination port bytes 2-3 are
zero. -/
def demoBufZeroPort : List Nat :=
  [0, 5, 0, 0, 0, 0, 0, 0, 0xAA] ++ List.replicate 1491 0

theorem loadBE_some_le {pkt : List Nat} {off size v : Nat}
    (h : loadBE pkt off size = some v) : off + size ≤ pkt.length := by
  by_cases hle : off + size ≤ pkt.length
  · exact hle
  · simp [loadBE, hle] at h

theorem loadBE_isSome (pkt : List Nat) (off size : Nat)
    (h : off + size ≤ pkt.length) : ∃ v, loadBE pkt off size = some v := by
  exact ⟨((pkt.drop off).take size).foldl (fun a b => 256 * a + b) 0, by simp [loadBE, h]⟩

theorem execF_ret (f : Nat) (v : Nat) (rest : List Instr) (a x : Nat) (pkt : List Nat) :
    execF (f + 1) (.retConstant v :: rest) a x pkt = .ret v := rfl

theorem execF_loadAbs {pkt : List Nat} {off sz v : Nat} (f : Nat) (rest : List Instr)
    (a x : Nat) (h : loadBE pkt off sz = some v) :
    execF (f + 1) (.loadAbsolute off sz :: rest) a x pkt = execF f rest v x pkt := by
  simp [execF, h]

theorem execF_loadAbs_none {pkt : List Nat} {off sz : Nat} (f : Nat) (rest : List Instr)
    (a x : Nat) (h : loadBE pkt off sz = none) :
    execF (f + 1) (.loadAbsolute off sz :: rest) a x pkt = .abort := by
  simp [execF, h]

theorem execF_loadInd {pkt : List Nat} {off sz x v : Nat} (f : Nat) (rest : List Instr)
    (a : Nat) (h : loadBE pkt (x + off) sz = some v) :
    execF (f + 1) (.loadIndirect off sz :: rest) a x pkt = execF f rest v x pkt := by
  simp [execF, h]

theorem execF_loadInd_none {pkt : List Nat} {off sz x : Nat} (f : Nat) (rest : List Instr)
    (a : Nat) (h : loadBE pkt (x + off) sz = none) :
    execF (f + 1) (.loadIndirect off sz :: rest) a x pkt = .abort := by
  simp [execF, h]

theorem execF_loadShift {pkt : List Nat} {off b : Nat} (f : Nat) (rest : List Instr)
    (a x : Nat) (h : loadBE pkt off 1 = some b) :
    execF (f + 1) (.loadMemShift off :: rest) a x pkt = execF f rest a (4 * (b % 16)) pkt := by
  simp [execF, h]

theorem execF_jump (f : Nat) (c : JumpCond) (val st sf : Nat) (rest : List Instr)
    (a x : Nat) (pkt : List Nat) :
    execF (f + 1) (.jumpIf c val st sf :: rest) a x pkt =
      execF f (rest.drop (if jumpTest c a val then st else sf)) a x pkt := rfl

theorem jumpsOK_tail {i : Instr} {rest : List Instr}
    (h : jumpsOK (i :: rest) = true) : jumpsOK rest = true := by
  cases i <;> simp [jumpsOK] at h <;> try exact h
  exact h.2

theorem jumpsOK_drop {l : List Instr} (k : Nat)
    (h : jumpsOK l = true) : jumpsOK (l.drop k) = true := by
  induction l generalizing k with
  | nil => simpa using h
  | cons i rest ih =>
    cases k with
    | zero => simpa using h
    | succ k => exact ih k (jumpsOK_tail h)

theorem endsInRet_cons {i : Instr} {rest : List Instr} (h : rest ≠ []) :
    endsInRet (i :: rest) = endsInRet rest := by
  cases rest with
  | nil => exact absurd rfl h
  | cons j rs => rfl

theorem endsInRet_drop {l : List Instr} {k : Nat}
    (hk : k < l.length) (h : endsInRet l = true) : endsInRet (l.drop k) = true := by
  induction l generalizing k with
  | nil => simp at hk
  | cons i rest ih =>
    cases k with
    | zero => simpa using h
    | succ k =>
      have hk' : k < rest.length := by simpa using hk
      have hne : rest ≠ [] := by
        intro he
        rw [he] at hk'
        simp at hk'
      rw [endsInRet_cons hne] at h
      exact ih hk' h

theorem execF_terminates (pkt : List Nat) :
    ∀ (f : Nat) (l : List Instr), l.length ≤ f → jumpsOK l = true →
      endsInRet l = true → ∀ a x : Nat, execF f l a x pkt ≠ .felloff := by
  intro f
  induction f with
  | zero =>
    intro l hf hj hr a x
    have : l = [] := List.length_eq_zero.mp (Nat.le_zero.mp hf)
    rw [this] at hr
    simp [endsInRet] at hr
  | succ f ih =>
    intro l hf hj hr a x
    cases l with
    | nil => simp [endsInRet] at hr
    | cons i rest =>
      have hrestlen : rest.length ≤ f := by
        simpa using Nat.lt_succ_iff.mp (Nat.lt_of_lt_of_le (Nat.lt_succ_self _) hf)
      have hrest : rest ≠ [] → endsInRet rest = true := by
        intro hne
        rw [endsInRet_cons hne] at hr
        exact hr
      cases i with
      | retConstant v => simp [execF]
      | loadAbsolute off sz =>
        cases hld : loadBE pkt off sz with
        | none => rw [execF_loadAbs_none f rest a x hld]; simp
        | some v =>
          rw [execF_loadAbs f rest a x hld]
          cases rest with
          | nil => simp [endsInRet, isRet] at hr
          | cons j rs =>
            exact ih (j :: rs) hrestlen (jumpsOK_tail hj) (hrest (by simp)) v x
      | loadIndirect off sz =>
        cases hld : loadBE pkt (x + off) sz with
        | none => rw [execF_loadInd_none f rest a hld]; simp
        | some v =>
          rw [execF_loadInd f rest a hld]
          cases rest with
          | nil => simp [endsInRet, isRet] at hr
          | cons j rs =>
            exact ih (j :: rs) hrestlen (jumpsOK_tail hj) (hrest (by simp)) v x
      | loadMemShift off =>
        cases hld : loadBE pkt off 1 with
        | none => simp [execF, hld]
        | some b =>
          rw [execF_loadShift f rest a x hld]
          cases rest with
          | nil => simp [endsInRet, isRet] at hr
          | cons j rs =>
            exact ih (j :: rs) hrestlen (jumpsOK_tail hj) (hrest (by simp)) a (4 * (b % 16))
      | jumpIf c val st sf =>
        have hj' : st < rest.length ∧ sf < rest.length ∧ jumpsOK rest = true := by
          simpa [jumpsOK, and_assoc] using hj
        rw [execF_jump f c val st sf rest a x pkt]
        have hk : (if jumpTest c a val then st else sf) < rest.length := by
          by_cases hc : jumpTest c a val = true
          · simpa [hc] using hj'.1
          · simpa [hc] using hj'.2.1
        have hne : rest ≠ [] := by
          intro he
          rw [he] at hk
          simp at hk
        refine ih _ ?_ (jumpsOK_drop _ hj'.2.2) (endsInRet_drop hk (hrest hne)) a x
        calc (rest.drop _).length ≤ rest.length := by
              rw [List.length_drop]; omega
          _ ≤ f := hrestlen

theorem v4_accept_iff (pkt : List Nat) (w : Nat) (hw : loadBE pkt 6 2 = some w)
    (h1 : w &&& 0x2000 = 0) (h2 : w &&& 0x1fff = 0) :
    runFilter magicsockFilterV4 pkt ≠ 0 ↔ v4MarkerMatch pkt = true := by
  have ht1 : jumpTest .jumpBitsSet w 0x2000 = false := by simp [jumpTest, h1]
  have ht2 : jumpTest .jumpBitsSet w 0x1fff = false := by simp [jumpTest, h2]
  have hlen : 8 ≤ pkt.length := by have := loadBE_some_le hw; omega
  obtain ⟨b, hb⟩ := loadBE_isSome pkt 0 1 (by omega)
  rcases h4 : loadBE pkt (4 * (b % 16) + 8) 4 with _ | v
  · simp [runFilter, execProg, magicsockFilterV4, execF, udpHeaderSize, hw, ht1, ht2,
      hb, h4, v4MarkerMatch, ipv4HeaderLen]
  · by_cases hv : v = discoMagic1
    · subst hv
      rcases h6 : loadBE pkt (4 * (b % 16) + 12) 2 with _ | u
      · simp [runFilter, execProg, magicsockFilterV4, execF, udpHeaderSize, jumpTest,
          hw, ht1, ht2, h1, h2, hb, h4, h6, v4MarkerMatch, ipv4HeaderLen]
      · by_cases hu : u = discoMagic2
        · subst hu
          simp [runFilter, execProg, magicsockFilterV4, execF, udpHeaderSize, jumpTest,
            hw, ht1, ht2, h1, h2, hb, h4, h6, v4MarkerMatch, ipv4HeaderLen]
        · simp [runFilter, execProg, magicsockFilterV4, execF, udpHeaderSize, jumpTest,
            hw, ht1, ht2, h1, h2, hb, h4, h6, hu, v4MarkerMatch, ipv4HeaderLen]
    · simp [runFilter, execProg, magicsockFilterV4, execF, udpHeaderSize, jumpTest,
        hw, ht1, ht2, h1, h2, hb, h4, hv, v4MarkerMatch, ipv4HeaderLen]

theorem v6_accept_iff (pkt : List Nat) :
    runFilter magicsockFilterV6 pkt ≠ 0 ↔ v6MarkerMatch pkt = true := by
  rcases h4 : loadBE pkt 8 4 with _ | v
  · simp [runFilter, execProg, magicsockFilterV6, execF, udpHeaderSize, h4, v6MarkerMatch]
  · by_cases hv : v = discoMagic1
    · subst hv
      rcases h6 : loadBE pkt 12 2 with _ | u
      · simp [runFilter, execProg, magicsockFilterV6, execF, udpHeaderSize, jumpTest,
          h4, h6, v6MarkerMatch]
      · by_cases hu : u = discoMagic2
        · subst hu
          simp [runFilter, execProg, magicsockFilterV6, execF, udpHeaderSize, jumpTest,
            h4, h6, v6MarkerMatch]
        · simp [runFilter, execProg, magicsockFilterV6, execF, udpHeaderSize, jumpTest,
            h4, h6, hu, v6MarkerMatch]
    · simp [runFilter, execProg, magicsockFilterV6, execF, udpHeaderSize, jumpTest,
        h4, hv, v6MarkerMatch]

/-- C2: each filter accepts (non-zero return) iff both marker segments
match: for V4, on an unfragmented IPv4 packet, the 4 bytes at
headerLength+8 equal the first magic value and the 2 bytes at
headerLength+12 equal the second; for V6, the same at offsets 8 and 12
of the visible buffer; any difference in either segment drops. -/
theorem magicsockFilters_accept_iff_marker :
    (∀ (pkt : List Nat) (w : Nat), loadBE pkt 6 2 = some w → w &&& 0x2000 = 0 →
      w &&& 0x1fff = 0 →
        (runFilter magicsockFilterV4 pkt ≠ 0 ↔ v4MarkerMatch pkt = true)) ∧
    (∀ pkt : List Nat, runFilter magicsockFilterV6 pkt ≠ 0 ↔ v6MarkerMatch pkt = true) :=
  ⟨fun pkt w hw h1 h2 => v4_accept_iff pkt w hw h1 h2, fun pkt => v6_accept_iff pkt⟩

/-- Witness for C2 at concrete packets carrying the marker. -/
theorem magicsockFilters_accept_iff_marker_witness :
    (runFilter magicsockFilterV4 demoPkt4 ≠ 0 ↔ v4MarkerMatch demoPkt4 = true) ∧
    (runFilter magicsockFilterV6 demoPkt6 ≠ 0 ↔ v6MarkerMatch demoPkt6 = true) :=
  ⟨magicsockFilters_accept_iff_marker.1 demoPkt4 0 (by decide) (by decide) (by decide),
   magicsockFilters_accept_iff_marker.2 demoPkt6⟩

/-- C3: the V4 filter drops any buffer whose bytes 6-7 have the
more-fragments bit (mask 0x2000) set or a non-zero fragment offset
(mask 0x1fff), regardless of the marker content elsewhere. -/
theorem magicsockFilterV4_drops_fragments (pkt : List Nat) (w : Nat)
    (hw : loadBE pkt 6 2 = some w)
    (hfrag : w &&& 0x2000 ≠ 0 ∨ w &&& 0x1fff ≠ 0) :
    runFilter magicsockFilterV4 pkt = 0 := by
  rcases hfrag with h | h
  · have ht : jumpTest .jumpBitsSet w 0x2000 = true := by simp [jumpTest, h]
    simp [runFilter, execProg, magicsockFilterV4, execF, hw, ht]
  · cases ht1 : jumpTest .jumpBitsSet w 0x2000 with
    | true => simp [runFilter, execProg, magicsockFilterV4, execF, hw, ht1]
    | false =>
      have ht2 : jumpTest .jumpBitsSet w 0x1fff = true := by simp [jumpTest, h]
      simp [runFilter, execProg, magicsockFilterV4, execF, hw, ht1, ht2]

/-- Witness for C3: a marker-carrying packet with the more-fragments
bit set is dropped. -/
theorem magicsockFilterV4_drops_fragments_witness :
    runFilter magicsockFilterV4 demoFragPkt4 = 0 :=
  magicsockFilterV4_drops_fragments demoFragPkt4 0x2000 (by decide) (by decide)

/-- C7 counterexample: on the empty input the V4 filter's evaluation
ends with the kernel's implicit drop at the first load (an
out-of-bounds read), not at either of the two return instructions. -/
theorem magicsockFilterV4_short_input_aborts :
    execProg magicsockFilterV4 0 0 [] = Outcome.abort ∧
    Outcome.abort ≠ Outcome.ret 0xFFFFFFFF ∧ Outcome.abort ≠ Outcome.ret 0 := by
  decide

/-- C7 (amended): in both filter programs every conditional jump's
skip counts land strictly within the program, the straight-line end is
a return, and evaluation on any input from any register state
terminates without running past the end of the program: it ends at a
return instruction or in the kernel's implicit drop at an
out-of-bounds load.  (Backward jumps are unrepresentable: a jump only
drops instructions from the remaining program.) -/
theorem magicsockFilters_wellformed :
    jumpsOK magicsockFilterV4 = true ∧ endsInRet magicsockFilterV4 = true ∧
    jumpsOK magicsockFilterV6 = true ∧ endsInRet magicsockFilterV6 = true ∧
    (∀ (a x : Nat) (pkt : List Nat),
      terminated (execProg magicsockFilterV4 a x pkt) = true) ∧
    (∀ (a x : Nat) (pkt : List Nat),
      terminated (execProg magicsockFilterV6 a x pkt) = true) := by
  refine ⟨by decide, by decide, by decide, by decide, ?_, ?_⟩
  · intro a x pkt
    have h := execF_terminates pkt 10 magicsockFilterV4 (by decide) (by decide)
      (by decide) a x
    have he : execProg magicsockFilterV4 a x pkt = execF 10 magicsockFilterV4 a x pkt := rfl
    rw [he]
    cases ho : execF 10 magicsockFilterV4 a x pkt with
    | felloff => exact absurd ho h
    | ret v => simp [terminated]
    | abort => simp [terminated]
  · intro a x pkt
    have h := execF_terminates pkt 6 magicsockFilterV6 (by decide) (by decide)
      (by decide) a x
    have he : execProg magicsockFilterV6 a x pkt = execF 6 magicsockFilterV6 a x pkt := rfl
    rw [he]
    cases ho : execF 6 magicsockFilterV6 a x pkt with
    | felloff => exact absurd ho h
    | ret v => simp [terminated]
    | abort => simp [terminated]

/-- C1: when `SyscallConn` and `Control` succeed but the
SO_ATTACH_FILTER setsockopt inside the callback fails, setBPF returns
Go nil — the source's final branch returns `err` (nil at that point)
instead of `setErr`, so the install reports success although the
filter was not attached. -/
theorem setBPF_swallows_setsockopt_error : setBPF none none (some 1) = none := rfl

theorem selfTestPhase_cases (reads : List STRead) :
    selfTestPhase reads = [] ∨
      selfTestPhase reads = [.closeSocket, .returnErr] ∨
      selfTestPhase reads = [.clearDeadline, .startLoop, .returnOk] := by
  induction reads with
  | nil => exact Or.inl rfl
  | cons r rest ih =>
    cases r with
    | err => exact Or.inr (Or.inl rfl)
    | ok data src =>
      by_cases hlt : data.length < udpHeaderSize
      · simpa [selfTestPhase, hlt] using ih
      · by_cases hm : data.drop udpHeaderSize = testDiscoPacket
        · refine Or.inr (Or.inr ?_)
          simp [selfTestPhase, hlt, hm]
        · simpa [selfTestPhase, hlt, hm] using ih

theorem selfTestPhase_match {data src : List Nat} {rest : List STRead}
    (hm : data.drop 8 = testDiscoPacket) :
    data.length = 70 ∧
      selfTestPhase (.ok data src :: rest) =
        [.clearDeadline, .startLoop, .returnOk] := by
  have hlen : data.length = 70 := by
    have h1 : (data.drop 8).length = data.length - 8 := List.length_drop 8 data
    rw [hm] at h1
    have h2 : testDiscoPacket.length = 62 := by decide
    omega
  have hlt : ¬ data.length < 8 := by
    rw [hlen]; decide
  refine ⟨hlen, ?_⟩
  simp [selfTestPhase, udpHeaderSize, hlt, hm]

/-- C5: in the self-test phase of listenRawDisco, a read error yields
the trace close-socket then error-return, with the receive loop never
started; whenever the receive loop is started, the read deadline was
cleared first and the call returns the handle without closing the
socket; and a matching test packet produces exactly that success
trace. -/
theorem listenRawDisco_selfTest_behavior :
    (∀ rest : List STRead,
      selfTestPhase (.err :: rest) = [.closeSocket, .returnErr]) ∧
    (∀ reads : List STRead, Event.startLoop ∈ selfTestPhase reads →
      selfTestPhase reads = [.clearDeadline, .startLoop, .returnOk]) ∧
    (∀ reads : List STRead, Event.returnErr ∈ selfTestPhase reads →
      selfTestPhase reads = [.closeSocket, .returnErr]) ∧
    (∀ (data src : List Nat) (rest : List STRead), data.drop 8 = testDiscoPacket →
      selfTestPhase (.ok data src :: rest) = [.clearDeadline, .startLoop, .returnOk]) := by
  refine ⟨fun rest => rfl, ?_, ?_, ?_⟩
  · intro reads hmem
    rcases selfTestPhase_cases reads with h | h | h <;> rw [h] <;> rw [h] at hmem <;>
      simp at hmem ⊢
  · intro reads hmem
    rcases selfTestPhase_cases reads with h | h | h <;> rw [h] <;> rw [h] at hmem <;>
      simp at hmem ⊢
  · intro data src rest hm
    exact (selfTestPhase_match hm).2

/-- Witness for C5: a failing first read, and a successful read whose
bytes after the UDP header are the test packet. -/
theorem listenRawDisco_selfTest_behavior_witness :
    selfTestPhase [STRead.err] = [Event.closeSocket, Event.returnErr] ∧
    selfTestPhase [STRead.ok (List.replicate 8 0 ++ testDiscoPacket) [127, 0, 0, 1]] =
      [Event.clearDeadline, Event.startLoop, Event.returnOk] :=
  ⟨listenRawDisco_selfTest_behavior.1 [],
   listenRawDisco_selfTest_behavior.2.2.2 (List.replicate 8 0 ++ testDiscoPacket)
     [127, 0, 0, 1] [] (by decide)⟩

/-- C10: the self-test acceptance depends only on packet contents, not
provenance: the trace is unchanged under any change of a read's source
address; the first read whose bytes after the 8-byte UDP header equal
`testDiscoPacket` (necessarily a 70-byte read) succeeds; any read of
at least 8 bytes whose post-header bytes differ, and any shorter read,
is silently skipped; and no read is ever dispatched to the handler
during the self-test. -/
theorem selfTest_content_only :
    (∀ (data src src2 : List Nat) (rest : List STRead),
      selfTestPhase (.ok data src :: rest) = selfTestPhase (.ok data src2 :: rest)) ∧
    (∀ (data src : List Nat) (rest : List STRead), data.drop 8 = testDiscoPacket →
      data.length = 70 ∧
        selfTestPhase (.ok data src :: rest) =
          [.clearDeadline, .startLoop, .returnOk]) ∧
    (∀ (data src : List Nat) (rest : List STRead), 8 ≤ data.length →
      data.drop 8 ≠ testDiscoPacket →
        selfTestPhase (.ok data src :: rest) = selfTestPhase rest) ∧
    (∀ (data src : List Nat) (rest : List STRead), data.length < 8 →
      selfTestPhase (.ok data src :: rest) = selfTestPhase rest) ∧
    (∀ reads : List STRead, Event.dispatchEvt ∉ selfTestPhase reads) := by
  refine ⟨fun data src src2 rest => rfl, ?_, ?_, ?_, ?_⟩
  · intro data src rest hm
    exact selfTestPhase_match hm
  · intro data src rest h8 hm
    have hlt : ¬ data.length < udpHeaderSize := by
      simp [udpHeaderSize]; omega
    simp [selfTestPhase, hlt, udpHeaderSize, hm]
  · intro data src rest hlt
    have h : data.length < udpHeaderSize := by simpa [udpHeaderSize] using hlt
    simp [selfTestPhase, h]
  · intro reads
    rcases selfTestPhase_cases reads with h | h | h <;> rw [h] <;> simp

theorem goSlice_some {buf : List Nat} {i j : Nat} (h1 : i ≤ j) (h2 : j ≤ buf.length) :
    goSlice buf i j = some ((buf.take j).drop i) := by
  simp [goSlice, h1, h2]

theorem discoPortProcess_accept (acceptPort : Nat) (buf : List Nat) (n : Nat)
    (src : List Nat) (logged : Bool) (hnz : acceptPort ≠ 0)
    (hsrc : src.length = 4 ∨ src.length = 16)
    (hbuf : 2 ≤ buf.length) (h8 : 8 ≤ n) (hn : n ≤ buf.length) :
    ∃ srcPort, loadBE buf 0 2 = some srcPort ∧
      discoPortProcess acceptPort buf n src acceptPort logged =
        some (.cont ⟨some ⟨(buf.take n).drop 8, src, srcPort, List.replicate 32 0⟩,
          if src.length = 4 then 1 else 0,
          if src.length = 4 then 0 else 1, true, logged⟩) := by
  obtain ⟨sp, hsp⟩ := loadBE_isSome buf 0 2 (by omega)
  refine ⟨sp, hsp, ?_⟩
  have hslice : goSlice buf udpHeaderSize n = some ((buf.take n).drop 8) :=
    goSlice_some (by simp [udpHeaderSize]; omega) hn
  have hsl : (src.length == 4 || src.length == 16) = true := by
    rcases hsrc with h | h <;> simp [h]
  rcases hsrc with h | h <;>
    simp [discoPortProcess, hnz, hsl, hsp, hslice, h]

theorem discoPortProcess_zero_dst {acceptPort : Nat} {buf : List Nat} {n : Nat}
    {src : List Nat} {logged : Bool} :
    discoPortProcess acceptPort buf n src 0 logged =
      some (.cont ⟨none, 0, 0, true, logged⟩) := by
  by_cases hap : acceptPort = 0
  · simp [discoPortProcess, hap]
  · simp [discoPortProcess, hap, Ne.symm hap]

theorem discoPortProcess_isSome {acceptPort : Nat} {buf : List Nat} {n : Nat}
    {src : List Nat} {dstPort : Nat} {logged : Bool}
    (hbuf : 2 ≤ buf.length) (h8 : 8 ≤ n) (hn : n ≤ buf.length) :
    (discoPortProcess acceptPort buf n src dstPort logged).isSome = true := by
  obtain ⟨sp, hsp⟩ := loadBE_isSome buf 0 2 (by omega)
  have hslice : goSlice buf udpHeaderSize n = some ((buf.take n).drop 8) :=
    goSlice_some (by simp [udpHeaderSize]; omega) hn
  by_cases hap : acceptPort == 0
  · simp [discoPortProcess, hap]
  · by_cases hne : dstPort != acceptPort
    · simp [discoPortProcess, hap, hne]
    · by_cases h4 : src.length == 4
      · simp [discoPortProcess, hap, hne, hsp, hslice, h4]
      · by_cases h16 : src.length == 16 <;>
          simp [discoPortProcess, hap, hne, hsp, hslice, h4, h16]

/-- C4: a read of n at least 8 bytes whose parsed destination port
(big-endian bytes 2-3) equals the family's non-zero bound port and
whose source slice parses as an IP address (4 or 16 bytes) is
dispatched exactly once, with payload buf bytes 8 to n, the parsed
source port from big-endian bytes 0-1, the source address, and the
zero sender identity; exactly one family counter is bumped, chosen by
whether the source is a 4-byte (IPv4) address. -/
theorem receiveDisco_dispatches_matching (isIPV6 : Bool) (port4 port6 : Nat)
    (buf src : List Nat) (n dstPort : Nat)
    (hbuf : buf.length = 1500) (h8 : 8 ≤ n) (hn : n ≤ 1500)
    (hdst : loadBE buf 2 2 = some dstPort)
    (hport : (if isIPV6 then port6 else port4) = dstPort) (hnz : dstPort ≠ 0)
    (hsrc : src.length = 4 ∨ src.length = 16) :
    ∃ srcPort, loadBE buf 0 2 = some srcPort ∧
      receiveDiscoIter isIPV6 port4 port6 buf (.ok n src) =
        some (.cont ⟨some ⟨(buf.take n).drop 8, src, srcPort, List.replicate 32 0⟩,
          if src.length = 4 then 1 else 0,
          if src.length = 4 then 0 else 1, true, false⟩) := by
  obtain ⟨sp, hsp, hpp⟩ := discoPortProcess_accept dstPort buf n src false hnz hsrc
    (by omega) h8 (by omega)
  refine ⟨sp, hsp, ?_⟩
  have hlt : ¬ n < 8 := by omega
  have hlg : (dstPort == 0) = false := by simp [hnz]
  simp only [receiveDiscoIter, udpHeaderSize, hlt, if_false, hdst, hlg, hport]
  exact hpp

/-- Witness for C4: a 9-byte read on the IPv4 path with matching port
5 from a 4-byte source address. -/
theorem receiveDisco_dispatches_matching_witness :
    ∃ srcPort, loadBE demoBuf 0 2 = some srcPort ∧
      receiveDiscoIter false 5 0 demoBuf (.ok 9 [127, 0, 0, 1]) =
        some (.cont ⟨some ⟨(demoBuf.take 9).drop 8, [127, 0, 0, 1], srcPort,
          List.replicate 32 0⟩,
          if ([127, 0, 0, 1] : List Nat).length = 4 then 1 else 0,
          if ([127, 0, 0, 1] : List Nat).length = 4 then 0 else 1, true, false⟩) :=
  receiveDisco_dispatches_matching false 5 0 demoBuf [127, 0, 0, 1] 9 5
    (by decide) (by decide) (by decide) (by decide) (by decide) (by decide)
    (by decide)

/-- C6: a read shorter than 8 bytes is dropped and the loop continues:
no dispatch, no counter increment, no port lookup, no port-0 log; the
outcome does not depend on the buffer contents or the bound ports. -/
theorem receiveDisco_drops_short (isIPV6 : Bool) (port4 port6 : Nat)
    (buf src : List Nat) (n : Nat) (h : n < 8) :
    receiveDiscoIter isIPV6 port4 port6 buf (.ok n src) =
      some (.cont ⟨none, 0, 0, false, false⟩) := by
  have h' : n < udpHeaderSize := by simpa [udpHeaderSize] using h
  simp [receiveDiscoIter, h']

/-- Witness for C6: a 3-byte read is dropped without any effect. -/
theorem receiveDisco_drops_short_witness :
    receiveDiscoIter false 5 0 demoBuf (.ok 3 [127, 0, 0, 1]) =
      some (.cont ⟨none, 0, 0, false, false⟩) :=
  receiveDisco_drops_short false 5 0 demoBuf [127, 0, 0, 1] 3 (by decide)

/-- C8: the receive loop is total on arbitrary read results: for any
read of n bytes with n at most the 1500-byte buffer, every buffer
access is in bounds (the iteration never takes the panic value
`none`), and a closed-socket read exits cleanly while any other read
error exits the loop after logging. -/
theorem receiveDisco_total (isIPV6 : Bool) (port4 port6 : Nat)
    (buf src : List Nat) (n : Nat) (hbuf : buf.length = 1500) (hn : n ≤ 1500) :
    (receiveDiscoIter isIPV6 port4 port6 buf (.ok n src)).isSome = true ∧
    receiveDiscoIter isIPV6 port4 port6 buf .closed = some .exitClean ∧
    receiveDiscoIter isIPV6 port4 port6 buf .failed = some .exitError := by
  refine ⟨?_, rfl, rfl⟩
  by_cases hlt : n < 8
  · rw [receiveDisco_drops_short isIPV6 port4 port6 buf src n hlt]
    rfl
  · obtain ⟨dp, hdp⟩ := loadBE_isSome buf 2 2 (by omega)
    have h' : ¬ n < udpHeaderSize := by simpa [udpHeaderSize] using hlt
    simp only [receiveDiscoIter, h', if_false, hdp]
    exact discoPortProcess_isSome (by omega) (by omega) (by omega)

/-- Witness for C8: a maximal 1500-byte read, a closed-socket read and
a failing read on a concrete buffer. -/
theorem receiveDisco_total_witness :
    (receiveDiscoIter true 0 0 demoBuf (.ok 1500 [1, 2, 3])).isSome = true ∧
    receiveDiscoIter true 0 0 demoBuf .closed = some .exitClean ∧
    receiveDiscoIter true 0 0 demoBuf .failed = some .exitError :=
  receiveDisco_total true 0 0 demoBuf [1, 2, 3] 1500 (by decide) (by decide)

/-- C9: a read of at least 8 bytes whose parsed destination port is 0
is logged as unexpected but not dropped at that step: the iteration
continues into the same port-lookup/port-compare/dispatch continuation
`discoPortProcess` used for every destination port, and that
continuation performs the port lookup. -/
theorem receiveDisco_portZero_logged_not_dropped (isIPV6 : Bool) (port4 port6 : Nat)
    (buf src : List Nat) (n : Nat) (h8 : 8 ≤ n)
    (hdst : loadBE buf 2 2 = some 0) :
    receiveDiscoIter isIPV6 port4 port6 buf (.ok n src) =
      discoPortProcess (if isIPV6 then port6 else port4) buf n src 0 true ∧
    discoPortProcess (if isIPV6 then port6 else port4) buf n src 0 true =
      some (.cont ⟨none, 0, 0, true, true⟩) := by
  have hlt : ¬ n < udpHeaderSize := by simp [udpHeaderSize]; omega
  constructor
  · simp [receiveDiscoIter, hlt, hdst]
  · exact discoPortProcess_zero_dst

/-- Witness for C9: a 9-byte read with destination port bytes 0. -/
theorem receiveDisco_portZero_logged_not_dropped_witness :
    receiveDiscoIter false 5 0 demoBufZeroPort (.ok 9 [127, 0, 0, 1]) =
      discoPortProcess (if false then 0 else 5) demoBufZeroPort 9 [127, 0, 0, 1] 0 true ∧
    discoPortProcess (if false then 0 else 5) demoBufZeroPort 9 [127, 0, 0, 1] 0 true =
      some (.cont ⟨none, 0, 0, true, true⟩) :=
  receiveDisco_portZero_logged_not_dropped false 5 0 demoBufZeroPort [127, 0, 0, 1] 9
    (by decide) (by decide)

/-- Witness for C10: source addresses do not change the trace, a
70-byte matching read succeeds, mismatching and short reads are
skipped, and no self-test read is dispatched. -/
theorem selfTest_content_only_witness :
    selfTestPhase [STRead.ok (List.replicate 8 0 ++ testDiscoPacket) [9, 9, 9, 9]] =
      selfTestPhase [STRead.ok (List.replicate 8 0 ++ testDiscoPacket) [127, 0, 0, 1]] ∧
    ((List.replicate 8 0 ++ testDiscoPacket : List Nat).length = 70 ∧
      selfTestPhase [STRead.ok (List.replicate 8 0 ++ testDiscoPacket) [9, 9, 9, 9]] =
        [Event.clearDeadline, Event.startLoop, Event.returnOk]) ∧
    selfTestPhase [STRead.ok (List.replicate 9 1) [1], STRead.err] =
      selfTestPhase [STRead.err] ∧
    selfTestPhase [STRead.ok [1, 2] [1], STRead.err] = selfTestPhase [STRead.err] ∧
    Event.dispatchEvt ∉ selfTestPhase [STRead.err] :=
  ⟨selfTest_content_only.1 (List.replicate 8 0 ++ testDiscoPacket) [9, 9, 9, 9]
      [127, 0, 0, 1] [],
   selfTest_content_only.2.1 (List.replicate 8 0 ++ testDiscoPacket) [9, 9, 9, 9] []
      (by decide),
   selfTest_content_only.2.2.1 (List.replicate 9 1) [1] [STRead.err] (by decide)
      (by decide),
   selfTest_content_only.2.2.2.1 [1, 2] [1] [STRead.err] (by decide),
   selfTest_content_only.2.2.2.2 [STRead.err]⟩
